import Mathlib

/-!
Verification of the tone-aware email generation and resume-matching core of an
AI email assistant backend, embedded from `backend/services/generator.py`,
`backend/services/tone_adapter.py`, `backend/services/resume_matcher.py` and
`backend/config.py`.

Python strings are modelled as lists of character codes (`PyStr`); the ASCII
fragment of Python's case and whitespace handling is embedded explicitly.
External collaborators (the OpenAI client, the Hugging Face pipeline, spacy
NER, the nltk tokenizer and lemmatizer, and sklearn TF-IDF similarity) are
modelled as explicit parameters of the embedded functions, matching the spec's
treatment of them as external interfaces.
-/

/-! ## Python string model -/

abbrev PyStr := List Nat

def pystr (s : String) : PyStr := s.data.map Char.toNat

/-- ASCII model of Python `str.lower` on one character code. -/
def lowerChar (c : Nat) : Nat := if 65 ≤ c ∧ c ≤ 90 then c + 32 else c

/-- ASCII model of Python `str.upper` on one character code. -/
def upperChar (c : Nat) : Nat := if 97 ≤ c ∧ c ≤ 122 then c - 32 else c

def pyLower (s : PyStr) : PyStr := s.map lowerChar

/-- Python `str.capitalize`: upper-case the first character, lower-case the rest. -/
def pyCapitalize : PyStr → PyStr
  | [] => []
  | c :: cs => upperChar c :: pyLower cs

/-- Python whitespace (ASCII fragment): space, TAB, LF, VT, FF, CR. -/
def isSpace (c : Nat) : Bool :=
  c == 32 || c == 9 || c == 10 || c == 11 || c == 12 || c == 13

/-- Python `str.strip()`: drop whitespace from both ends. -/
def pyStrip (s : PyStr) : PyStr :=
  ((s.dropWhile isSpace).reverse.dropWhile isSpace).reverse

/-- Bool test that `w` is a leading segment of `s`. -/
def isPreB : PyStr → PyStr → Bool
  | [], _ => true
  | _ :: _, [] => false
  | a :: w, b :: s => a == b && isPreB w s

/-- Python's substring operator `w in s`. -/
def isSubB (w : PyStr) : PyStr → Bool
  | [] => w.isEmpty
  | c :: s => isPreB w (c :: s) || isSubB w s

/-- `w` occurs contiguously inside `s`. -/
def SubStr (w s : PyStr) : Prop := ∃ a b, s = a ++ w ++ b

theorem isPreB_iff {w s : PyStr} : isPreB w s = true ↔ ∃ b, s = w ++ b := by
  induction w generalizing s with
  | nil => simp [isPreB]
  | cons a w ih =>
    cases s with
    | nil => simp [isPreB]
    | cons b s =>
      simp only [isPreB, Bool.and_eq_true, beq_iff_eq, ih, List.cons_append,
        List.cons.injEq]
      constructor
      · rintro ⟨rfl, t, rfl⟩
        exact ⟨t, rfl, rfl⟩
      · rintro ⟨t, rfl, rfl⟩
        exact ⟨rfl, t, rfl⟩

theorem isSubB_iff {w s : PyStr} : isSubB w s = true ↔ SubStr w s := by
  induction s with
  | nil =>
    cases w with
    | nil => simp [isSubB, SubStr, List.isEmpty]
    | cons c w => simp [isSubB, SubStr, List.isEmpty]
  | cons c s ih =>
    simp only [isSubB, Bool.or_eq_true, isPreB_iff, ih, SubStr]
    constructor
    · rintro (⟨b, h⟩ | ⟨a, b, h⟩)
      · exact ⟨[], b, by simp [h]⟩
      · exact ⟨c :: a, b, by simp [h]⟩
    · rintro ⟨a, b, h⟩
      cases a with
      | nil => exact Or.inl ⟨b, by simpa using h⟩
      | cons x a =>
        rw [List.cons_append, List.cons_append] at h
        injection h with h1 h2
        exact Or.inr ⟨a, b, h2⟩

theorem subStr_refl (s : PyStr) : SubStr s s := ⟨[], [], by simp⟩

theorem subStr_trans {w m s : PyStr} (h₁ : SubStr w m) (h₂ : SubStr m s) : SubStr w s := by
  obtain ⟨a, b, rfl⟩ := h₁
  obtain ⟨a', b', rfl⟩ := h₂
  exact ⟨a' ++ a, b ++ b', by simp⟩

theorem subStr_rev_of {w s : PyStr} (h : SubStr w s) : SubStr w.reverse s.reverse := by
  obtain ⟨a, b, rfl⟩ := h
  exact ⟨b.reverse, a.reverse, by simp⟩

theorem subStr_rev {w s : PyStr} : SubStr w.reverse s.reverse ↔ SubStr w s := by
  constructor
  · intro h
    simpa using subStr_rev_of h
  · exact subStr_rev_of

theorem subStr_nil {w : PyStr} (h : SubStr w []) : w = [] := by
  obtain ⟨a, b, hab⟩ := h
  have := hab.symm
  simp only [List.append_eq_nil] at this
  exact this.1.2

/-- A substring whose characters are not whitespace survives a leading
whitespace drop. -/
theorem subStr_dropWhile_front {w s : PyStr} (hne : w ≠ [])
    (hw : ∀ c ∈ w, isSpace c = false) (h : SubStr w s) :
    SubStr w (s.dropWhile isSpace) := by
  induction s with
  | nil => simpa using h
  | cons c s ih =>
    rw [List.dropWhile_cons]
    by_cases hc : isSpace c = true
    · rw [if_pos hc]
      obtain ⟨a, b, hab⟩ := h
      cases a with
      | nil =>
        simp only [List.nil_append] at hab
        cases w with
        | nil => exact absurd rfl hne
        | cons x w' =>
          rw [List.cons_append] at hab
          injection hab with h1 h2
          rw [h1] at hc
          exact absurd hc (by simp [hw x (by simp)])
      | cons y a' =>
        rw [List.cons_append, List.cons_append] at hab
        injection hab with h1 h2
        exact ih ⟨a', b, h2⟩
    · rw [if_neg hc]
      exact h

/-- Every string contains its own strip as a substring. -/
theorem subStr_pyStrip_self (s : PyStr) : SubStr (pyStrip s) s := by
  unfold pyStrip
  have h1 : SubStr (s.dropWhile isSpace) s := by
    refine ⟨s.takeWhile isSpace, [], ?_⟩
    rw [List.append_nil, List.takeWhile_append_dropWhile]
  set m := s.dropWhile isSpace with hm
  have h2 : SubStr (m.reverse.dropWhile isSpace) m.reverse := by
    refine ⟨m.reverse.takeWhile isSpace, [], ?_⟩
    rw [List.append_nil, List.takeWhile_append_dropWhile]
  have h3 : SubStr (m.reverse.dropWhile isSpace).reverse m := by
    have := subStr_rev_of h2
    simpa using this
  exact subStr_trans h3 h1

/-- For a nonempty all-non-whitespace pattern, occurrence inside the stripped
string and occurrence inside the original string coincide. -/
theorem subStr_pyStrip {w s : PyStr} (hne : w ≠ [])
    (hw : ∀ c ∈ w, isSpace c = false) :
    SubStr w (pyStrip s) ↔ SubStr w s := by
  constructor
  · intro h
    exact subStr_trans h (subStr_pyStrip_self s)
  · intro h
    unfold pyStrip
    have step1 : SubStr w (s.dropWhile isSpace) := subStr_dropWhile_front hne hw h
    have hwr : ∀ c ∈ w.reverse, isSpace c = false := by
      intro c hc
      exact hw c (List.mem_reverse.mp hc)
    have hner : w.reverse ≠ [] := by
      intro hcon
      exact hne (by simpa using congrArg List.reverse hcon)
    have step2 : SubStr w.reverse (s.dropWhile isSpace).reverse := subStr_rev_of step1
    have step3 : SubStr w.reverse ((s.dropWhile isSpace).reverse.dropWhile isSpace) :=
      subStr_dropWhile_front hner hwr step2
    have step4 := subStr_rev_of step3
    simpa using step4

/-! ### Interaction of lowering with whitespace handling -/

theorem isSpace_eq_false_of_ge {c : Nat} (h : 33 ≤ c) : isSpace c = false := by
  simp only [isSpace, Bool.or_eq_false_iff, beq_eq_false_iff_ne, ne_eq]
  omega

theorem isSpace_lowerChar (c : Nat) : isSpace (lowerChar c) = isSpace c := by
  unfold lowerChar
  split
  · rename_i h
    rw [isSpace_eq_false_of_ge (by omega), isSpace_eq_false_of_ge (by omega)]
  · rfl

theorem lowerChar_lowerChar (c : Nat) : lowerChar (lowerChar c) = lowerChar c := by
  unfold lowerChar
  split_ifs <;> omega

theorem lowerChar_upperChar (c : Nat) : lowerChar (upperChar c) = lowerChar c := by
  unfold lowerChar upperChar
  split_ifs <;> omega

theorem pyLower_pyLower (s : PyStr) : pyLower (pyLower s) = pyLower s := by
  unfold pyLower
  rw [List.map_map]
  exact List.map_congr_left fun c _ => lowerChar_lowerChar c

theorem pyLower_pyCapitalize (s : PyStr) : pyLower (pyCapitalize s) = pyLower s := by
  cases s with
  | nil => rfl
  | cons c cs =>
    show pyLower (upperChar c :: pyLower cs) = pyLower (c :: cs)
    unfold pyLower
    simp only [List.map_cons]
    rw [lowerChar_upperChar]
    have : (List.map lowerChar cs).map lowerChar = List.map lowerChar cs :=
      pyLower_pyLower cs
    rw [this]

theorem pyLower_dropWhile (s : PyStr) :
    pyLower (s.dropWhile isSpace) = (pyLower s).dropWhile isSpace := by
  induction s with
  | nil => rfl
  | cons c s ih =>
    show pyLower (List.dropWhile isSpace (c :: s)) =
      List.dropWhile isSpace (lowerChar c :: pyLower s)
    rw [List.dropWhile_cons, List.dropWhile_cons, isSpace_lowerChar]
    by_cases hc : isSpace c = true
    · rw [if_pos hc, if_pos hc, ih]
    · rw [if_neg hc, if_neg hc]
      rfl

theorem pyLower_reverse (s : PyStr) : pyLower s.reverse = (pyLower s).reverse :=
  List.map_reverse lowerChar s

theorem pyLower_pyStrip (s : PyStr) : pyLower (pyStrip s) = pyStrip (pyLower s) := by
  unfold pyStrip
  rw [pyLower_reverse, pyLower_dropWhile, pyLower_reverse, pyLower_dropWhile]

/-! ## Tone adapter (`backend/services/tone_adapter.py`, `backend/config.py`) -/

/-- `config.TONE_OPTIONS` (config.py line 31). -/
def TONE_OPTIONS : List PyStr :=
  [pystr "Formal", pystr "Friendly", pystr "Persuasive", pystr "Apologetic",
   pystr "Assertive"]

/-- `normalize_tone` (tone_adapter.py lines 72-95): empty input defaults to
Formal; the stripped and capitalized input is returned when it is a catalog
entry; otherwise the first catalog tone whose lower-cased name is a substring
of the lower-cased cleaned input is returned, defaulting to Formal. -/
def normalize_tone (tone : PyStr) : PyStr :=
  if tone = [] then pystr "Formal"
  else
    let tone_clean := pyCapitalize (pyStrip tone)
    if tone_clean ∈ TONE_OPTIONS then tone_clean
    else
      let tone_lower := pyLower tone_clean
      match TONE_OPTIONS.find? (fun valid_tone => isSubB (pyLower valid_tone) tone_lower) with
      | some valid_tone => valid_tone
      | none => pystr "Formal"

theorem tone_name_facts :
    ∀ t ∈ TONE_OPTIONS, pyLower t ≠ [] ∧ ∀ c ∈ pyLower t, isSpace c = false := by
  decide

/-- Substring containment against the cleaned input used by the code agrees
with case-insensitive containment in the raw input, for catalog tone names. -/
theorem occurs_clean_iff (t s : PyStr) (ht : t ∈ TONE_OPTIONS) :
    isSubB (pyLower t) (pyLower (pyCapitalize (pyStrip s))) = true ↔
      SubStr (pyLower t) (pyLower s) := by
  rw [isSubB_iff, pyLower_pyCapitalize, pyLower_pyStrip]
  exact subStr_pyStrip (tone_name_facts t ht).1 (tone_name_facts t ht).2

theorem find?_first {α : Type} (p : α → Bool) (l₁ l₂ : List α) (t : α)
    (h₁ : ∀ x ∈ l₁, p x = false) (ht : p t = true) :
    (l₁ ++ t :: l₂).find? p = some t := by
  induction l₁ with
  | nil => simpa using List.find?_cons_of_pos l₂ ht
  | cons x l ih =>
    rw [List.cons_append, List.find?_cons_of_neg]
    · exact ih fun y hy => h₁ y (List.mem_cons_of_mem x hy)
    · simp [h₁ x (List.mem_cons_self x l)]

/-- C3: `normalize_tone` always returns a catalog tone; the cleaned input is
returned when it is itself a catalog entry; otherwise the first catalog tone
(in enumeration order) whose name occurs case-insensitively as a substring of
the input is returned; with no occurrence at all the result is Formal. -/
theorem c3_normalize_tone_spec (s : PyStr) :
    normalize_tone s ∈ TONE_OPTIONS ∧
    (pyCapitalize (pyStrip s) ∈ TONE_OPTIONS →
      normalize_tone s = pyCapitalize (pyStrip s)) ∧
    (∀ l₁ t l₂, TONE_OPTIONS = l₁ ++ t :: l₂ →
      pyCapitalize (pyStrip s) ∉ TONE_OPTIONS →
      SubStr (pyLower t) (pyLower s) →
      (∀ t' ∈ l₁, ¬ SubStr (pyLower t') (pyLower s)) →
      normalize_tone s = t) ∧
    ((∀ t ∈ TONE_OPTIONS, ¬ SubStr (pyLower t) (pyLower s)) →
      normalize_tone s = pystr "Formal") := by
  by_cases hs : s = []
  · subst hs
    refine ⟨by decide, ?_, ?_, ?_⟩
    · intro h
      exact absurd h (by decide)
    · intro l₁ t l₂ hdec _ hocc _
      have ht : t ∈ TONE_OPTIONS := by
        rw [hdec]
        exact List.mem_append_right l₁ (List.mem_cons_self t l₂)
      have : pyLower t = [] := subStr_nil hocc
      exact absurd this (tone_name_facts t ht).1
    · intro _
      rfl
  · unfold normalize_tone
    rw [if_neg hs]
    by_cases htc : pyCapitalize (pyStrip s) ∈ TONE_OPTIONS
    · rw [if_pos htc]
      refine ⟨htc, fun _ => rfl, ?_, ?_⟩
      · intro l₁ t l₂ _ hcon
        exact absurd htc hcon
      · intro hall
        exfalso
        apply hall _ htc
        have hself : SubStr (pyLower (pyCapitalize (pyStrip s)))
            (pyLower (pyCapitalize (pyStrip s))) :=
          subStr_refl _
        exact (occurs_clean_iff _ s htc).mp (isSubB_iff.mpr hself)
    · rw [if_neg htc]
      have hfind :
          ∀ r, TONE_OPTIONS.find?
            (fun valid_tone => isSubB (pyLower valid_tone)
              (pyLower (pyCapitalize (pyStrip s)))) = r →
            (match r with
             | some valid_tone => valid_tone
             | none => pystr "Formal") ∈ TONE_OPTIONS := by
        intro r hr
        cases r with
        | some t => exact List.mem_of_find?_eq_some hr
        | none => decide
      refine ⟨hfind _ rfl, fun h => absurd h htc, ?_, ?_⟩
      · intro l₁ t l₂ hdec _ hocc hfirst
        have ht : t ∈ TONE_OPTIONS := by
          rw [hdec]
          exact List.mem_append_right l₁ (List.mem_cons_self t l₂)
        have hpt : isSubB (pyLower t) (pyLower (pyCapitalize (pyStrip s))) = true :=
          (occurs_clean_iff t s ht).mpr hocc
        have hneg : ∀ x ∈ l₁,
            isSubB (pyLower x) (pyLower (pyCapitalize (pyStrip s))) = false := by
          intro x hx
          have hxmem : x ∈ TONE_OPTIONS := by
            rw [hdec]
            exact List.mem_append_left _ hx
          by_contra hcon
          rw [Bool.not_eq_false] at hcon
          exact hfirst x hx ((occurs_clean_iff x s hxmem).mp hcon)
        show (match TONE_OPTIONS.find?
            (fun valid_tone => isSubB (pyLower valid_tone)
              (pyLower (pyCapitalize (pyStrip s)))) with
          | some valid_tone => valid_tone
          | none => pystr "Formal") = t
        rw [hdec, find?_first _ l₁ l₂ t hneg hpt]
      · intro hall
        have : TONE_OPTIONS.find?
            (fun valid_tone => isSubB (pyLower valid_tone)
              (pyLower (pyCapitalize (pyStrip s)))) = none := by
          rw [List.find?_eq_none]
          intro x hx
          simp only [Bool.not_eq_true]
          by_contra hcon
          rw [Bool.not_eq_false] at hcon
          exact hall x hx ((occurs_clean_iff x s hx).mp hcon)
        show (match TONE_OPTIONS.find?
            (fun valid_tone => isSubB (pyLower valid_tone)
              (pyLower (pyCapitalize (pyStrip s)))) with
          | some valid_tone => valid_tone
          | none => pystr "Formal") = pystr "Formal"
        rw [this]

/-- C3 witness: a concrete unrecognized-but-containing input. -/
theorem c3_normalize_tone_witness :
    normalize_tone (pystr "mostly formal") = pystr "Formal" := by
  refine (c3_normalize_tone_spec (pystr "mostly formal")).2.2.1 []
    (pystr "Formal")
    [pystr "Friendly", pystr "Persuasive", pystr "Apologetic", pystr "Assertive"]
    (by decide) (by decide) (isSubB_iff.mp (by decide)) ?_
  intro t' ht'
  simp at ht'

/-! ### Tone characteristics catalog (tone_adapter.py lines 4-70)

The apostrophe character (code 39) inside three phrases is spliced in
explicitly. -/

/-- One entry of `TONE_CHARACTERISTICS`: preferred words, preferred phrases
and words to avoid. -/
structure ToneChar where
  name : PyStr
  words : List PyStr
  phrases : List PyStr
  avoid : List PyStr

def tcFormal : ToneChar :=
  ⟨pystr "Formal",
   [pystr "respectfully", pystr "kindly", pystr "accordingly", pystr "pursuant",
    pystr "regarding", pystr "furthermore", pystr "nevertheless", pystr "therefore"],
   [pystr "I am writing to", pystr "please be advised", pystr "as per our discussion",
    pystr "thank you for your consideration", pystr "at your earliest convenience"],
   [pystr "hey", pystr "yeah", pystr "cool", pystr "awesome", pystr "thanks",
    pystr "btw", pystr "okay"]⟩

def tcFriendly : ToneChar :=
  ⟨pystr "Friendly",
   [pystr "great", pystr "wonderful", pystr "appreciate", pystr "thanks",
    pystr "helpful", pystr "excited", pystr "looking forward", pystr "pleased"],
   [pystr "hope you" ++ [39] ++ pystr "re doing well", pystr "great to hear from you",
    pystr "thanks so much", pystr "looking forward to", pystr "all the best"],
   [pystr "hereby", pystr "pursuant", pystr "moreover", pystr "thus",
    pystr "henceforth"]⟩

def tcPersuasive : ToneChar :=
  ⟨pystr "Persuasive",
   [pystr "opportunity", pystr "benefit", pystr "advantage", pystr "valuable",
    pystr "essential", pystr "proven", pystr "guaranteed", pystr "exclusive"],
   [pystr "you" ++ [39] ++ pystr "ll be pleased to know",
    pystr "I" ++ [39] ++ pystr "m confident that", pystr "this will ensure",
    pystr "consider the benefits", pystr "imagine how"],
   [pystr "maybe", pystr "perhaps", pystr "possibly", pystr "might",
    pystr "somewhat"]⟩

def tcApologetic : ToneChar :=
  ⟨pystr "Apologetic",
   [pystr "apologize", pystr "sorry", pystr "regret", pystr "understand",
    pystr "inconvenience", pystr "mistake", pystr "error", pystr "rectify"],
   [pystr "I sincerely apologize", pystr "please accept our apologies",
    pystr "we understand your frustration", pystr "we will make this right"],
   [pystr "but", pystr "however", pystr "though", pystr "excuse", pystr "defend"]⟩

def tcAssertive : ToneChar :=
  ⟨pystr "Assertive",
   [pystr "will", pystr "must", pystr "require", pystr "ensure",
    pystr "immediate", pystr "essential", pystr "crucial", pystr "necessary"],
   [pystr "I expect", pystr "please ensure that", pystr "it is essential",
    pystr "this requires immediate attention", pystr "I need"],
   [pystr "maybe", pystr "kind of", pystr "sort of", pystr "hopefully",
    pystr "if possible"]⟩

def TONE_CHARACTERISTICS : List ToneChar :=
  [tcFormal, tcFriendly, tcPersuasive, tcApologetic, tcAssertive]

/-- Number of entries of `l` (lower-cased, as in the source) found as
substrings of the lower-cased text. -/
def hitCount (textLower : PyStr) (l : List PyStr) : Nat :=
  (l.filter (fun w => isSubB (pyLower w) textLower)).length

/-- Per-tone normalized score of `analyze_tone` (tone_adapter.py lines
144-162): word hits + 2 × phrase hits − avoid hits, divided by the number of
word and phrase markers of the tone. -/
def toneScore (text : PyStr) (tc : ToneChar) : ℚ :=
  let tl := pyLower text
  (((hitCount tl tc.words : ℤ) + 2 * (hitCount tl tc.phrases : ℤ)
      - (hitCount tl tc.avoid : ℤ) : ℤ) : ℚ)
    / ((tc.words.length + tc.phrases.length : ℕ) : ℚ)

/-- Python's `max(items, key=f)`: left fold keeping the current best and
replacing it only on a strictly greater key, so the first maximum wins. -/
def pyMaxBy {α : Type} (f : α → ℚ) : α → List α → α
  | b, [] => b
  | b, x :: xs => pyMaxBy f (if f b < f x then x else b) xs

/-- `analyze_tone` (tone_adapter.py lines 131-166): score each catalog tone,
take the maximum in insertion order, report `min 1` of its score as the
confidence. -/
def analyze_tone (text : PyStr) : PyStr × ℚ :=
  let detected := pyMaxBy (toneScore text) tcFormal
    [tcFriendly, tcPersuasive, tcApologetic, tcAssertive]
  (detected.name, min 1 (toneScore text detected))

theorem pyMaxBy_le {α : Type} (f : α → ℚ) (l : List α) :
    ∀ b : α, f b ≤ f (pyMaxBy f b l) ∧ ∀ y ∈ l, f y ≤ f (pyMaxBy f b l) := by
  induction l with
  | nil =>
    intro b
    exact ⟨le_refl _, by simp⟩
  | cons x xs ih =>
    intro b
    rw [pyMaxBy]
    by_cases h : f b < f x
    · rw [if_pos h]
      obtain ⟨h1, h2⟩ := ih x
      refine ⟨le_trans (le_of_lt h) h1, ?_⟩
      intro y hy
      rcases List.mem_cons.mp hy with rfl | hy'
      · exact h1
      · exact h2 y hy'
    · rw [if_neg h]
      obtain ⟨h1, h2⟩ := ih b
      refine ⟨h1, ?_⟩
      intro y hy
      rcases List.mem_cons.mp hy with rfl | hy'
      · exact le_trans (not_lt.mp h) h1
      · exact h2 y hy'

/-- Either the running best survives (everything in the list is no better),
or the result sits in the list and strictly beats the running best and every
element before it. -/
theorem pyMaxBy_first {α : Type} (f : α → ℚ) (l : List α) :
    ∀ b : α, (pyMaxBy f b l = b ∧ ∀ y ∈ l, f y ≤ f b) ∨
      (∃ l₁ l₂, l = l₁ ++ pyMaxBy f b l :: l₂ ∧ f b < f (pyMaxBy f b l) ∧
        ∀ y ∈ l₁, f y < f (pyMaxBy f b l)) := by
  induction l with
  | nil =>
    intro b
    exact Or.inl ⟨rfl, by simp⟩
  | cons x xs ih =>
    intro b
    rw [pyMaxBy]
    by_cases h : f b < f x
    · rw [if_pos h]
      rcases ih x with ⟨hr, hall⟩ | ⟨l₁, l₂, hdec, hlt, hstrict⟩
      · right
        refine ⟨[], xs, by rw [hr]; rfl, by rw [hr]; exact h, by simp⟩
      · right
        refine ⟨x :: l₁, l₂, ?_, lt_trans h hlt, ?_⟩
        · rw [List.cons_append, ← hdec]
        · intro y hy
          rcases List.mem_cons.mp hy with rfl | hy'
          · exact hlt
          · exact hstrict y hy'
    · rw [if_neg h]
      rcases ih b with ⟨hr, hall⟩ | ⟨l₁, l₂, hdec, hlt, hstrict⟩
      · left
        refine ⟨hr, ?_⟩
        intro y hy
        rcases List.mem_cons.mp hy with rfl | hy'
        · exact not_lt.mp h
        · exact hall y hy'
      · right
        refine ⟨x :: l₁, l₂, ?_, hlt, ?_⟩
        · rw [List.cons_append, ← hdec]
        · intro y hy
          rcases List.mem_cons.mp hy with rfl | hy'
          · exact lt_of_le_of_lt (not_lt.mp h) hlt
          · exact hstrict y hy'

/-- Concrete text whose winning tone score is negative: it contains one avoid
marker of each tone and no preferred markers. -/
def sampleNegativeText : PyStr := pystr "hey hereby maybe but kind of"

/-- C4: `analyze_tone` returns the first catalog tone attaining the maximum
normalized score (words + 2 × phrases − avoid hits, divided by word + phrase
marker count) with confidence `min 1 score`; the confidence is not clamped
below and is negative on a concrete avoid-word-dominated text. -/
theorem c4_analyze_tone_spec :
    (∀ text : PyStr, ∃ tc l₁ l₂,
      TONE_CHARACTERISTICS = l₁ ++ tc :: l₂ ∧
      analyze_tone text = (tc.name, min 1 (toneScore text tc)) ∧
      (∀ tc' ∈ TONE_CHARACTERISTICS, toneScore text tc' ≤ toneScore text tc) ∧
      (∀ tc' ∈ l₁, toneScore text tc' < toneScore text tc)) ∧
    (analyze_tone sampleNegativeText).2 < 0 := by
  constructor
  · intro text
    rcases pyMaxBy_first (toneScore text)
        [tcFriendly, tcPersuasive, tcApologetic, tcAssertive] tcFormal with
      ⟨hr, hall⟩ | ⟨l₁, l₂, hdec, hlt, hstrict⟩
    · refine ⟨tcFormal, [],
        [tcFriendly, tcPersuasive, tcApologetic, tcAssertive], rfl, ?_, ?_, by simp⟩
      · show (_, min 1 (toneScore text _)) = _
        rw [hr]
      · intro tc' htc'
        rcases List.mem_cons.mp htc' with rfl | hy'
        · exact le_refl _
        · exact hall tc' hy'
    · refine ⟨pyMaxBy (toneScore text) tcFormal
          [tcFriendly, tcPersuasive, tcApologetic, tcAssertive],
        tcFormal :: l₁, l₂, ?_, rfl, ?_, ?_⟩
      · show tcFormal :: [tcFriendly, tcPersuasive, tcApologetic, tcAssertive] = _
        rw [List.cons_append, ← hdec]
      · intro tc' htc'
        rcases List.mem_cons.mp htc' with rfl | hy'
        · exact le_of_lt hlt
        · exact (pyMaxBy_le (toneScore text) _ tcFormal).2 tc' hy'
      · intro tc' htc'
        rcases List.mem_cons.mp htc' with rfl | hy'
        · exact hlt
        · exact hstrict tc' hy'
  · have hwF : hitCount (pyLower sampleNegativeText) tcFormal.words = 0 := by decide
    have hpF : hitCount (pyLower sampleNegativeText) tcFormal.phrases = 0 := by decide
    have haF : hitCount (pyLower sampleNegativeText) tcFormal.avoid = 1 := by decide
    have hlF : tcFormal.words.length + tcFormal.phrases.length = 13 := by decide
    have hwFr : hitCount (pyLower sampleNegativeText) tcFriendly.words = 0 := by decide
    have hpFr : hitCount (pyLower sampleNegativeText) tcFriendly.phrases = 0 := by decide
    have haFr : hitCount (pyLower sampleNegativeText) tcFriendly.avoid = 1 := by decide
    have hlFr : tcFriendly.words.length + tcFriendly.phrases.length = 13 := by decide
    have hwP : hitCount (pyLower sampleNegativeText) tcPersuasive.words = 0 := by decide
    have hpP : hitCount (pyLower sampleNegativeText) tcPersuasive.phrases = 0 := by decide
    have haP : hitCount (pyLower sampleNegativeText) tcPersuasive.avoid = 1 := by decide
    have hlP : tcPersuasive.words.length + tcPersuasive.phrases.length = 13 := by decide
    have hwAp : hitCount (pyLower sampleNegativeText) tcApologetic.words = 0 := by decide
    have hpAp : hitCount (pyLower sampleNegativeText) tcApologetic.phrases = 0 := by decide
    have haAp : hitCount (pyLower sampleNegativeText) tcApologetic.avoid = 1 := by decide
    have hlAp : tcApologetic.words.length + tcApologetic.phrases.length = 12 := by decide
    have hwAs : hitCount (pyLower sampleNegativeText) tcAssertive.words = 0 := by decide
    have hpAs : hitCount (pyLower sampleNegativeText) tcAssertive.phrases = 0 := by decide
    have haAs : hitCount (pyLower sampleNegativeText) tcAssertive.avoid = 2 := by decide
    have hlAs : tcAssertive.words.length + tcAssertive.phrases.length = 13 := by decide
    have sF : toneScore sampleNegativeText tcFormal = -1 / 13 := by
      simp only [toneScore]
      rw [hwF, hpF, haF, hlF]
      norm_num
    have sFr : toneScore sampleNegativeText tcFriendly = -1 / 13 := by
      simp only [toneScore]
      rw [hwFr, hpFr, haFr, hlFr]
      norm_num
    have sP : toneScore sampleNegativeText tcPersuasive = -1 / 13 := by
      simp only [toneScore]
      rw [hwP, hpP, haP, hlP]
      norm_num
    have sAp : toneScore sampleNegativeText tcApologetic = -1 / 12 := by
      simp only [toneScore]
      rw [hwAp, hpAp, haAp, hlAp]
      norm_num
    have sAs : toneScore sampleNegativeText tcAssertive = -2 / 13 := by
      simp only [toneScore]
      rw [hwAs, hpAs, haAs, hlAs]
      norm_num
    have hwin : pyMaxBy (toneScore sampleNegativeText) tcFormal
        [tcFriendly, tcPersuasive, tcApologetic, tcAssertive] = tcFormal := by
      rw [pyMaxBy, if_neg (by rw [sF, sFr]; norm_num)]
      rw [pyMaxBy, if_neg (by rw [sF, sP]; norm_num)]
      rw [pyMaxBy, if_neg (by rw [sF, sAp]; norm_num)]
      rw [pyMaxBy, if_neg (by rw [sF, sAs]; norm_num)]
      rw [pyMaxBy]
    show (analyze_tone sampleNegativeText).2 < 0
    simp only [analyze_tone]
    rw [hwin, sF]
    rw [min_eq_right (by norm_num : (-1 / 13 : ℚ) ≤ 1)]
    norm_num

/-- C4 witness: the characterization applied at a concrete text. -/
theorem c4_analyze_tone_witness :
    ∃ tc l₁ l₂, TONE_CHARACTERISTICS = l₁ ++ tc :: l₂ ∧
      analyze_tone (pystr "thanks so much") =
        (tc.name, min 1 (toneScore (pystr "thanks so much") tc)) ∧
      (∀ tc' ∈ TONE_CHARACTERISTICS,
        toneScore (pystr "thanks so much") tc' ≤ toneScore (pystr "thanks so much") tc) ∧
      (∀ tc' ∈ l₁,
        toneScore (pystr "thanks so much") tc' < toneScore (pystr "thanks so much") tc) :=
  c4_analyze_tone_spec.1 (pystr "thanks so much")

/-! ## Email generator (`backend/services/generator.py`) -/

/-- `config.HF_MODEL` default value (config.py line 20), the local fallback
model identifier. -/
def HF_MODEL : PyStr := pystr "microsoft/phi-2"

/-- `TONE_EXAMPLES` (generator.py lines 23-44): greeting and closing per tone. -/
def TONE_EXAMPLES : List (PyStr × PyStr × PyStr) :=
  [(pystr "Formal", pystr "Dear [Name],", pystr "Best regards,"),
   (pystr "Friendly", pystr "Hi [Name],", pystr "Thanks and best wishes,"),
   (pystr "Persuasive", pystr "Dear [Name],",
    pystr "Looking forward to your positive response,"),
   (pystr "Apologetic", pystr "Dear [Name],", pystr "Sincerely apologizing,"),
   (pystr "Assertive", pystr "Dear [Name],", pystr "Best regards,")]

/-- Python dict lookup `TONE_EXAMPLES[tone]`; `none` models the `KeyError`. -/
def lookupToneExample (tone : PyStr) : Option (PyStr × PyStr) :=
  (TONE_EXAMPLES.find? (fun e => e.1 == tone)).map (fun e => e.2)

/-- Counts of the external effects of one call: primary (OpenAI) invocations,
fallback (Hugging Face) invocations, and increments of the
`email_generation_count` metric (utils/metrics.py line 12). -/
structure Trace where
  gpt : Nat
  hf : Nat
  incs : Nat

def Trace.append (a b : Trace) : Trace := ⟨a.gpt + b.gpt, a.hf + b.hf, a.incs + b.incs⟩

/-- Behaviour of the two external generation backends during one call:
`gptOutput = none` models `openai.ChatCompletion.create` raising, `some s` a
successful call whose stripped message content is `s`; likewise `hfOutput`
for the Hugging Face pipeline, with `hfErr` the exception text `str(e)` of a
failing pipeline call. A successful create is assumed to carry a well-formed
response, so nothing fails between the metric increment on line 85 and the
return on line 86. -/
structure GenEnv where
  gptOutput : Option PyStr
  hfOutput : Option PyStr
  hfErr : PyStr

/-- Body of the `try` block of `generate_email_with_gpt` (generator.py lines
50-86). The prompt text itself is not modelled (no claim mentions it); its
construction can fail only at the `TONE_EXAMPLES[tone]` lookup on line 52,
which raises `KeyError` before the backend is invoked (the
`TONE_DESCRIPTIONS.get` on line 51 has a default and is total). The `Except`
error is the exception caught by the handler on line 88; the trace records
whether the OpenAI backend was invoked and whether the metric was
incremented. -/
def gptTryBody (env : GenEnv) (tone : PyStr) : Except Unit PyStr × Trace :=
  match lookupToneExample tone with
  | none => (Except.error (), ⟨0, 0, 0⟩)
  | some _ =>
    match env.gptOutput with
    | none => (Except.error (), ⟨1, 0, 0⟩)
    | some s => (Except.ok s, ⟨1, 0, 1⟩)

/-- `generate_email_with_huggingface` (generator.py lines 92-114): on pipeline
success the metric is incremented and the stripped text returned; on failure
the error-content string is returned and the metric is not touched. -/
def generate_email_with_huggingface (env : GenEnv) (subject context tone : PyStr) :
    PyStr × Trace :=
  match env.hfOutput with
  | some s => (s, ⟨0, 1, 1⟩)
  | none => (pystr "Error generating email: " ++ env.hfErr, ⟨0, 1, 0⟩)

/-- `generate_email_with_gpt` (generator.py lines 46-90): run the try body;
any exception — prompt-construction `KeyError` or backend failure — is caught
by the catch-all `except` and answered by the Hugging Face fallback. -/
def generate_email_with_gpt (env : GenEnv) (subject context tone : PyStr)
    (recipient_name : Option PyStr) : PyStr × Trace :=
  match gptTryBody env tone with
  | (Except.ok s, t) => (s, t)
  | (Except.error _, t) =>
    let fb := generate_email_with_huggingface env subject context tone
    (fb.1, t.append fb.2)

/-- Result dictionary of `generate_email` (generator.py lines 144-150); the
`generated_at` timestamp (an external clock read) is not modelled. -/
structure EmailResult where
  content : PyStr
  tone : PyStr
  subject : PyStr
  model_used : PyStr

/-- `generate_email` (generator.py lines 116-150): dispatch on `use_gpt` and
attach metadata; `model_used` is chosen by the `use_gpt` flag alone. -/
def generate_email (env : GenEnv) (subject context : PyStr) (tone : PyStr)
    (recipient_name : Option PyStr) (use_gpt : Bool) : EmailResult × Trace :=
  let res := if use_gpt then generate_email_with_gpt env subject context tone recipient_name
             else generate_email_with_huggingface env subject context tone
  (⟨res.1, tone, subject, if use_gpt then pystr "GPT-3.5" else HF_MODEL⟩, res.2)

theorem hf_incs (env : GenEnv) (subject context tone : PyStr) :
    (generate_email_with_huggingface env subject context tone).2.incs = 1 ∨
    ((generate_email_with_huggingface env subject context tone).2.incs = 0 ∧
     (generate_email_with_huggingface env subject context tone).1 =
       pystr "Error generating email: " ++ env.hfErr) := by
  unfold generate_email_with_huggingface
  cases env.hfOutput with
  | some s => exact Or.inl rfl
  | none => exact Or.inr ⟨rfl, rfl⟩

theorem hf_gpt_count (env : GenEnv) (subject context tone : PyStr) :
    (generate_email_with_huggingface env subject context tone).2.gpt = 0 := by
  unfold generate_email_with_huggingface
  cases env.hfOutput with
  | some s => rfl
  | none => rfl

theorem hf_hf_count (env : GenEnv) (subject context tone : PyStr) :
    (generate_email_with_huggingface env subject context tone).2.hf = 1 := by
  unfold generate_email_with_huggingface
  cases env.hfOutput with
  | some s => rfl
  | none => rfl

theorem gpt_error_falls_back (env : GenEnv) (subject context tone : PyStr)
    (recipient_name : Option PyStr) (t : Trace)
    (herr : gptTryBody env tone = (Except.error (), t)) :
    generate_email_with_gpt env subject context tone recipient_name =
      ((generate_email_with_huggingface env subject context tone).1,
       t.append (generate_email_with_huggingface env subject context tone).2) := by
  unfold generate_email_with_gpt
  rw [herr]

theorem gpt_incs (env : GenEnv) (subject context tone : PyStr)
    (recipient_name : Option PyStr) :
    (generate_email_with_gpt env subject context tone recipient_name).2.incs = 1 ∨
    ((generate_email_with_gpt env subject context tone recipient_name).2.incs = 0 ∧
     (generate_email_with_gpt env subject context tone recipient_name).1 =
       pystr "Error generating email: " ++ env.hfErr) := by
  unfold generate_email_with_gpt gptTryBody
  cases hlk : lookupToneExample tone with
  | none =>
    rcases hf_incs env subject context tone with h1 | ⟨h0, hc⟩
    · left
      simp [Trace.append, h1]
    · right
      exact ⟨by simp [Trace.append, h0], by simpa using hc⟩
  | some ex =>
    cases hg : env.gptOutput with
    | some s => exact Or.inl rfl
    | none =>
      rcases hf_incs env subject context tone with h1 | ⟨h0, hc⟩
      · left
        simp [Trace.append, h1]
      · right
        exact ⟨by simp [Trace.append, h0], by simpa using hc⟩

/-- C1: concrete failing environment — the primary backend raises and the
Hugging Face fallback produces the content. -/
def envGptFails : GenEnv := ⟨none, some (pystr "fallback text"), []⟩

/-- C1: when the primary GPT call raises and the fallback produces the
content, `generate_email` with use_gpt = True does not raise and returns the
fallback content, but `model_used` is still "GPT-3.5": it is chosen by the
`use_gpt` flag alone (generator.py line 149) and does not equal the fallback
model identifier, contradicting the claim and the spec's intent for the
field. -/
theorem c1_model_used_misreported :
    (generate_email envGptFails (pystr "Subject") (pystr "Context")
        (pystr "Formal") none true).1.content = pystr "fallback text" ∧
    (generate_email envGptFails (pystr "Subject") (pystr "Context")
        (pystr "Formal") none true).1.model_used = pystr "GPT-3.5" ∧
    (generate_email envGptFails (pystr "Subject") (pystr "Context")
        (pystr "Formal") none true).1.model_used ≠ HF_MODEL ∧
    (generate_email envGptFails (pystr "Subject") (pystr "Context")
        (pystr "Formal") none true).2.incs = 1 :=
  ⟨rfl, rfl, by decide, rfl⟩

/-- Environment in which both backends would succeed. -/
def envBothWork : GenEnv := ⟨some (pystr "gpt text"), some (pystr "hf text"), []⟩

/-- C5 counterexample: with the non-catalog tone "Casual" the prompt
construction fails inside the try block (a `KeyError`, not a backend
failure), yet `generate_email` does not propagate any exception: the
catch-all handler routes the call to the fallback, which produces the
content. -/
theorem c5_counterexample :
    gptTryBody envBothWork (pystr "Casual") = (Except.error (), ⟨0, 0, 0⟩) ∧
    (generate_email envBothWork (pystr "Subject") (pystr "Context")
        (pystr "Casual") none true).1.content = pystr "hf text" :=
  ⟨rfl, rfl⟩

/-- C5 (amended): `generate_email` propagates no failures at all: every
exception raised inside the GPT try block — prompt construction included —
is caught by the catch-all handler and answered by the Hugging Face fallback
path (whose own double-failure case yields an error-content string, not an
exception). -/
theorem c5_amended_no_propagation (env : GenEnv) (subject context tone : PyStr)
    (recipient_name : Option PyStr)
    (herr : (gptTryBody env tone).1 = Except.error ()) :
    (generate_email env subject context tone recipient_name true).1.content =
      (generate_email_with_huggingface env subject context tone).1 := by
  cases hpair : gptTryBody env tone with
  | mk e t =>
    have he : e = Except.error () := by
      rw [hpair] at herr
      exact herr
    subst he
    have hfb := gpt_error_falls_back env subject context tone recipient_name t hpair
    simp [generate_email, hfb]

/-- C5 witness: the amended no-propagation property at the concrete unknown
tone "Casual". -/
theorem c5_amended_witness :
    (generate_email envBothWork (pystr "Subject") (pystr "Context")
        (pystr "Casual") none true).1.content =
      (generate_email_with_huggingface envBothWork (pystr "Subject")
        (pystr "Context") (pystr "Casual")).1 :=
  c5_amended_no_propagation envBothWork (pystr "Subject") (pystr "Context")
    (pystr "Casual") none rfl

/-- Environment in which both backends fail. -/
def envBothFail : GenEnv := ⟨none, none, pystr "connection refused"⟩

/-- C6 counterexample: when both backends fail, the generation counter is not
incremented at all (the claim requires exactly one increment in this case
too); the call returns the error-content string. -/
theorem c6_counterexample :
    (generate_email envBothFail (pystr "Subject") (pystr "Context")
        (pystr "Formal") none true).2.incs = 0 ∧
    (generate_email envBothFail (pystr "Subject") (pystr "Context")
        (pystr "Formal") none true).1.content =
      pystr "Error generating email: " ++ pystr "connection refused" :=
  ⟨rfl, rfl⟩

/-- C6 (amended): each call to `generate_email` increments the generation
counter exactly once when either backend produced the content, and zero
times when the content is the error-content string of a double failure. -/
theorem c6_amended_counter (env : GenEnv) (subject context tone : PyStr)
    (recipient_name : Option PyStr) (use_gpt : Bool) :
    (generate_email env subject context tone recipient_name use_gpt).2.incs = 1 ∨
    ((generate_email env subject context tone recipient_name use_gpt).2.incs = 0 ∧
     (generate_email env subject context tone recipient_name use_gpt).1.content =
       pystr "Error generating email: " ++ env.hfErr) := by
  cases use_gpt with
  | true =>
    have h := gpt_incs env subject context tone recipient_name
    simpa [generate_email] using h
  | false =>
    have h := hf_incs env subject context tone
    simpa [generate_email] using h

theorem tone_examples_keys : ∀ e ∈ TONE_EXAMPLES, e.1 ∈ TONE_OPTIONS := by decide

/-- C10: for any tone string outside the catalog, the `TONE_EXAMPLES[tone]`
lookup fails inside the try block before the OpenAI call, the catch-all
handler routes the call to the Hugging Face fallback, and no exception
escapes: the primary backend is never invoked and the result content is the
fallback's (its generated text, or its error-content string). -/
theorem c10_unknown_tone_uses_fallback (env : GenEnv)
    (subject context tone : PyStr) (recipient_name : Option PyStr)
    (htone : tone ∉ TONE_OPTIONS) :
    (generate_email env subject context tone recipient_name true).2.gpt = 0 ∧
    (generate_email env subject context tone recipient_name true).1.content =
      (generate_email_with_huggingface env subject context tone).1 ∧
    (generate_email env subject context tone recipient_name true).2.hf = 1 := by
  have hlk : lookupToneExample tone = none := by
    unfold lookupToneExample
    have hfind : TONE_EXAMPLES.find? (fun e => e.1 == tone) = none := by
      rw [List.find?_eq_none]
      intro e he
      simp only [Bool.not_eq_true, beq_eq_false_iff_ne, ne_eq]
      intro hcon
      exact htone (hcon ▸ tone_examples_keys e he)
    rw [hfind]
    rfl
  have herr : gptTryBody env tone = (Except.error (), ⟨0, 0, 0⟩) := by
    unfold gptTryBody
    rw [hlk]
  have hfb := gpt_error_falls_back env subject context tone recipient_name
    ⟨0, 0, 0⟩ herr
  refine ⟨?_, ?_, ?_⟩
  · simp [generate_email, hfb, Trace.append, hf_gpt_count]
  · simp [generate_email, hfb]
  · simp [generate_email, hfb, Trace.append, hf_hf_count]

/-- C10 witness: the fallback-only behaviour at the concrete unknown tone
"Casual" in an environment where both backends would succeed. -/
theorem c10_unknown_tone_witness :
    (generate_email envBothWork (pystr "Topic") (pystr "Details")
        (pystr "Casual") none true).2.gpt = 0 ∧
    (generate_email envBothWork (pystr "Topic") (pystr "Details")
        (pystr "Casual") none true).1.content =
      (generate_email_with_huggingface envBothWork (pystr "Topic")
        (pystr "Details") (pystr "Casual")).1 ∧
    (generate_email envBothWork (pystr "Topic") (pystr "Details")
        (pystr "Casual") none true).2.hf = 1 :=
  c10_unknown_tone_uses_fallback envBothWork (pystr "Topic") (pystr "Details")
    (pystr "Casual") none (by decide)

/-! ## Resume matcher (`backend/services/resume_matcher.py`) -/

/-- `extract_skills` (resume_matcher.py lines 25-49). The spacy NER pass and
the three regex patterns are external library calls; the candidate strings
they produce form the abstract `candidates` parameter. The rest mirrors the
source: all candidates are lower-cased and collected into a set (modelled as
deduplication — downstream code uses only membership), then entries of
length at most 2 and stop words are dropped. -/
def extract_skills (stop_words : List PyStr) (candidates : List PyStr) : List PyStr :=
  ((candidates.map pyLower).dedup).filter
    (fun skill => decide (2 < skill.length) && decide (skill ∉ stop_words))

theorem extract_skills_lower {stop_words candidates : List PyStr} {s : PyStr}
    (h : s ∈ extract_skills stop_words candidates) : pyLower s = s := by
  unfold extract_skills at h
  rw [List.mem_filter] at h
  have h1 := List.mem_dedup.mp h.1
  rw [List.mem_map] at h1
  obtain ⟨a, _, rfl⟩ := h1
  exact pyLower_pyLower a

/-- Result of `compute_match_score`: the overall int score and the three
detailed category scores of the returned dict. -/
structure MatchScores where
  overall : ℤ
  required_skills : ℚ
  preferred_skills : ℚ
  content_similarity : ℚ

/-- Python `int()` on a float: truncation toward zero. -/
def pyInt (q : ℚ) : ℤ := if 0 ≤ q then ⌊q⌋ else -⌊-q⌋

/-- `compute_match_score` (resume_matcher.py lines 100-142) with extraction
and similarity abstracted: `resume_skills` stands for
`extract_skills(resume_text)`, `required_list` and `preferred_list` for the
corresponding `analyze_requirements(job_description)` entries, and
`content_similarity` for the sklearn TF-IDF cosine similarity of the two
cleaned texts. Float arithmetic is modelled over ℚ. Sets built by `set(...)`
are modelled as finsets of the lists. -/
def compute_match_score (resume_skills required_list preferred_list : List PyStr)
    (content_similarity : ℚ) : MatchScores :=
  let rs := resume_skills.toFinset
  let required_skills := required_list.toFinset
  let preferred_skills := preferred_list.toFinset
  let required_match : ℚ :=
    if required_skills.Nonempty then
      ((rs ∩ required_skills).card : ℚ) / (required_skills.card : ℚ)
    else 1
  let preferred_match : ℚ :=
    if preferred_skills.Nonempty then
      ((rs ∩ preferred_skills).card : ℚ) / (preferred_skills.card : ℚ)
    else 1
  let ds_required := required_match * 100
  let ds_preferred := preferred_match * 100
  let ds_similarity := content_similarity * 100
  ⟨pyInt (ds_required * (4 / 10) + ds_preferred * (2 / 10) + ds_similarity * (4 / 10)),
   ds_required, ds_preferred, ds_similarity⟩

theorem ratio_bounds (rs req : Finset PyStr) :
    0 ≤ (if req.Nonempty then ((rs ∩ req).card : ℚ) / (req.card : ℚ) else 1) ∧
    (if req.Nonempty then ((rs ∩ req).card : ℚ) / (req.card : ℚ) else 1) ≤ 1 := by
  split_ifs with h
  · have hc : 0 < (req.card : ℚ) := by
      exact_mod_cast Finset.card_pos.mpr h
    constructor
    · positivity
    · rw [div_le_one hc]
      exact_mod_cast Finset.card_le_card Finset.inter_subset_right
  · norm_num

/-- C2: the overall score equals the floor of the fixed weighted sum
(0.4, 0.2, 0.4) of the three detailed category scores returned with it, each
category score lies in [0, 100], and the overall integer lies in [0, 100]. -/
theorem c2_match_score_weighted_floor
    (resume_skills required_list preferred_list : List PyStr) (sim : ℚ)
    (m : MatchScores)
    (hm : m = compute_match_score resume_skills required_list preferred_list sim)
    (h0 : 0 ≤ sim) (h1 : sim ≤ 1) :
    m.overall = ⌊(4 / 10 : ℚ) * m.required_skills + (2 / 10 : ℚ) * m.preferred_skills
        + (4 / 10 : ℚ) * m.content_similarity⌋ ∧
    0 ≤ m.overall ∧ m.overall ≤ 100 ∧
    0 ≤ m.required_skills ∧ m.required_skills ≤ 100 ∧
    0 ≤ m.preferred_skills ∧ m.preferred_skills ≤ 100 ∧
    0 ≤ m.content_similarity ∧ m.content_similarity ≤ 100 := by
  subst hm
  obtain ⟨hr0, hr1⟩ := ratio_bounds resume_skills.toFinset required_list.toFinset
  obtain ⟨hp0, hp1⟩ := ratio_bounds resume_skills.toFinset preferred_list.toFinset
  simp only [compute_match_score]
  set rm : ℚ := if required_list.toFinset.Nonempty then
      ((resume_skills.toFinset ∩ required_list.toFinset).card : ℚ) /
        (required_list.toFinset.card : ℚ)
    else 1 with hrm
  set pm : ℚ := if preferred_list.toFinset.Nonempty then
      ((resume_skills.toFinset ∩ preferred_list.toFinset).card : ℚ) /
        (preferred_list.toFinset.card : ℚ)
    else 1 with hpm
  have hw0 : 0 ≤ rm * 100 * (4 / 10) + pm * 100 * (2 / 10) + sim * 100 * (4 / 10) := by
    linarith
  have hw100 : rm * 100 * (4 / 10) + pm * 100 * (2 / 10) + sim * 100 * (4 / 10) ≤ 100 := by
    linarith
  refine ⟨?_, ?_, ?_, by linarith, by linarith, by linarith, by linarith,
    by linarith, by linarith⟩
  · show pyInt (rm * 100 * (4 / 10) + pm * 100 * (2 / 10) + sim * 100 * (4 / 10)) = _
    rw [pyInt, if_pos hw0]
    congr 1
    ring
  · show (0 : ℤ) ≤ pyInt (rm * 100 * (4 / 10) + pm * 100 * (2 / 10) + sim * 100 * (4 / 10))
    rw [pyInt, if_pos hw0]
    exact Int.le_floor.mpr (by exact_mod_cast hw0)
  · show pyInt (rm * 100 * (4 / 10) + pm * 100 * (2 / 10) + sim * 100 * (4 / 10)) ≤ 100
    rw [pyInt, if_pos hw0]
    calc ⌊rm * 100 * (4 / 10) + pm * 100 * (2 / 10) + sim * 100 * (4 / 10)⌋
        ≤ ⌊(100 : ℚ)⌋ := Int.floor_le_floor hw100
      _ = 100 := by norm_num

/-- C2 witness: the overall-score bounds at a concrete instantiation. -/
theorem c2_match_score_witness :
    0 ≤ (compute_match_score [pystr "python"] [pystr "python", pystr "sql"] []
        (1 / 2)).overall ∧
    (compute_match_score [pystr "python"] [pystr "python", pystr "sql"] []
        (1 / 2)).overall ≤ 100 := by
  have h := c2_match_score_weighted_floor [pystr "python"]
    [pystr "python", pystr "sql"] [] (1 / 2) _ rfl (by norm_num) (by norm_num)
  exact ⟨h.2.1, h.2.2.1⟩

/-- C7: empty analyzed required (respectively preferred) skill lists yield a
required (respectively preferred) category score of exactly 100 — vacuously
satisfied, never an error. -/
theorem c7_empty_skill_lists_vacuous
    (resume_skills required_list preferred_list : List PyStr) (sim : ℚ) :
    (required_list = [] →
      (compute_match_score resume_skills required_list preferred_list
        sim).required_skills = 100) ∧
    (preferred_list = [] →
      (compute_match_score resume_skills required_list preferred_list
        sim).preferred_skills = 100) := by
  constructor
  · rintro rfl
    simp [compute_match_score]
  · rintro rfl
    simp [compute_match_score]

/-- C7 witness: both empty-list cases at a concrete instantiation. -/
theorem c7_empty_skill_lists_witness :
    (compute_match_score [pystr "python"] [] [] 0).required_skills = 100 ∧
    (compute_match_score [pystr "python"] [] [] 0).preferred_skills = 100 :=
  ⟨(c7_empty_skill_lists_vacuous [pystr "python"] [] [] 0).1 rfl,
   (c7_empty_skill_lists_vacuous [pystr "python"] [] [] 0).2 rfl⟩

/-- `get_missing_requirements` (resume_matcher.py lines 144-158): filter the
required and preferred requirement lists down to the entries absent from the
resume skill set, keeping list order and multiplicity. -/
def get_missing_requirements (resume_skills required_list preferred_list : List PyStr) :
    List PyStr × List PyStr :=
  (required_list.filter (fun skill => decide (skill ∉ resume_skills)),
   preferred_list.filter (fun skill => decide (skill ∉ resume_skills)))

theorem count_filter_not_mem (rs l : List PyStr) (x : PyStr) :
    List.count x (l.filter (fun a => decide (a ∉ rs))) =
      if x ∈ rs then 0 else List.count x l := by
  split_ifs with h
  · rw [List.count_eq_zero]
    intro hcon
    rw [List.mem_filter] at hcon
    exact (of_decide_eq_true hcon.2) h
  · exact List.count_filter (by simpa using h)

/-- C8: no element returned by `get_missing_requirements` is present, even
case-insensitively, in the resume skill set (all skills on both sides being
produced lower-cased by `extract_skills`), and each returned list is the
order- and multiplicity-preserving filter of the corresponding requirement
list built by `analyze_requirements` (which concatenates per-sentence
`extract_skills` results). -/
theorem c8_missing_requirements_spec
    (stop_words resume_cands : List PyStr) (req_sents pref_sents : List (List PyStr))
    (rs reqL prefL : List PyStr)
    (hrs : rs = extract_skills stop_words resume_cands)
    (hreq : reqL = (req_sents.map (extract_skills stop_words)).flatten)
    (hpref : prefL = (pref_sents.map (extract_skills stop_words)).flatten) :
    (∀ x ∈ (get_missing_requirements rs reqL prefL).1, ∀ s ∈ rs,
      pyLower s ≠ pyLower x) ∧
    (∀ x ∈ (get_missing_requirements rs reqL prefL).2, ∀ s ∈ rs,
      pyLower s ≠ pyLower x) ∧
    List.Sublist (get_missing_requirements rs reqL prefL).1 reqL ∧
    List.Sublist (get_missing_requirements rs reqL prefL).2 prefL ∧
    (∀ x, List.count x (get_missing_requirements rs reqL prefL).1 =
      if x ∈ rs then 0 else List.count x reqL) ∧
    (∀ x, List.count x (get_missing_requirements rs reqL prefL).2 =
      if x ∈ rs then 0 else List.count x prefL) := by
  have hflat_lower : ∀ (sents : List (List PyStr)) (x : PyStr),
      x ∈ (sents.map (extract_skills stop_words)).flatten → pyLower x = x := by
    intro sents x hx
    rw [List.mem_flatten] at hx
    obtain ⟨l, hl, hxl⟩ := hx
    rw [List.mem_map] at hl
    obtain ⟨sent, _, rfl⟩ := hl
    exact extract_skills_lower hxl
  have habsent : ∀ (l : List PyStr), (∀ y ∈ l, pyLower y = y) →
      ∀ x ∈ l.filter (fun skill => decide (skill ∉ rs)), ∀ s ∈ rs,
        pyLower s ≠ pyLower x := by
    intro l hlow x hx s hs hcon
    rw [List.mem_filter] at hx
    have hxout : x ∉ rs := of_decide_eq_true hx.2
    have hxl : pyLower x = x := hlow x hx.1
    have hsl : pyLower s = s := extract_skills_lower (hrs ▸ hs)
    have : s = x := by
      rw [← hsl, ← hxl]
      exact hcon
    exact hxout (this ▸ hs)
  refine ⟨?_, ?_, List.filter_sublist _, List.filter_sublist _,
    fun x => count_filter_not_mem rs reqL x, fun x => count_filter_not_mem rs prefL x⟩
  · exact habsent reqL (fun y hy => hflat_lower req_sents y (hreq ▸ hy))
  · exact habsent prefL (fun y hy => hflat_lower pref_sents y (hpref ▸ hy))

/-- C8 witness: the multiplicity clause evaluated at a concrete resume and
job requirement sentence. -/
theorem c8_missing_requirements_witness :
    List.count (pystr "sql")
      (get_missing_requirements (extract_skills [] [pystr "Python"])
        (([[pystr "SQL", pystr "Python"]].map (extract_skills [])).flatten) []).1 = 1 := by
  have h := (c8_missing_requirements_spec [] [pystr "Python"]
      [[pystr "SQL", pystr "Python"]] []
      (extract_skills [] [pystr "Python"])
      (([[pystr "SQL", pystr "Python"]].map (extract_skills [])).flatten) []
      rfl rfl rfl).2.2.2.2.1 (pystr "sql")
  rw [h]
  decide

/-! ### The cleaning step of match scoring (`clean_text`) -/

/-- ASCII model of the regex word character class: digit, letter or
underscore. -/
def isWordChar (c : Nat) : Bool :=
  (48 ≤ c && c ≤ 57) || (65 ≤ c && c ≤ 90) || (97 ≤ c && c ≤ 122) || c == 95

/-- The substitution on resume_matcher.py line 57: every character that is
not a word character, whitespace or a hyphen becomes a space. -/
def scrub (s : PyStr) : PyStr :=
  s.map (fun c => if isWordChar c || isSpace c || c == 45 then c else 32)

/-- Python `str.isupper` (ASCII model): at least one upper-case letter and no
lower-case letter. -/
def pyIsUpper (s : PyStr) : Bool :=
  s.any (fun c => 65 ≤ c && c ≤ 90) && s.all (fun c => !(97 ≤ c && c ≤ 122))

/-- The token loop of `clean_text` (resume_matcher.py lines 61-70): drop stop
words and tokens of length at most 2; keep hyphenated or all-uppercase tokens
verbatim; lemmatize the rest. The WordNet lemmatizer is the abstract
parameter `lemmatize`. -/
def clean_tokens (lemmatize : PyStr → PyStr) (stop_words : List PyStr)
    (tokens : List PyStr) : List PyStr :=
  tokens.filterMap (fun token =>
    if token ∉ stop_words ∧ 2 < token.length then
      some (if token.contains 45 || pyIsUpper token then token else lemmatize token)
    else none)

/-- `clean_text` (resume_matcher.py lines 51-72): lower-case the text, scrub
punctuation, tokenize (nltk `word_tokenize`, the abstract parameter
`tokenize`), run the token loop and join the kept tokens with spaces. -/
def clean_text (tokenize : PyStr → List PyStr) (lemmatize : PyStr → PyStr)
    (stop_words : List PyStr) (text : PyStr) : PyStr :=
  (List.intersperse (pystr " ")
    (clean_tokens lemmatize stop_words (tokenize (scrub (pyLower text))))).flatten

theorem lowerChar_not_upper (c : Nat) : ¬(65 ≤ lowerChar c ∧ lowerChar c ≤ 90) := by
  unfold lowerChar
  split_ifs <;> omega

theorem mem_scrub_lower {c : Nat} {text : PyStr}
    (h : c ∈ scrub (pyLower text)) : ¬(65 ≤ c ∧ c ≤ 90) := by
  unfold scrub pyLower at h
  rw [List.mem_map] at h
  obtain ⟨d, hd, rfl⟩ := h
  rw [List.mem_map] at hd
  obtain ⟨e, _, rfl⟩ := hd
  split_ifs with hk
  · exact lowerChar_not_upper e
  · omega

/-- C9: `clean_text` lower-cases the whole text before tokenizing
(resume_matcher.py line 56), so no token can satisfy `isupper()` and the
acronym-preservation branch on line 66 is unreachable: for any tokenizer that
builds tokens out of characters of its input, every token fails `pyIsUpper`,
the cleaning loop degenerates to hyphen-only verbatim preservation with every
other kept token lemmatized, and concretely the all-uppercase input "AWS" is
lower-cased and handed to the lemmatizer instead of being preserved
verbatim. -/
theorem c9_acronym_branch_unreachable :
    (∀ (tokenize : PyStr → List PyStr),
      (∀ s t, t ∈ tokenize s → ∀ c ∈ t, c ∈ s) →
      ∀ (text : PyStr) t, t ∈ tokenize (scrub (pyLower text)) →
        pyIsUpper t = false) ∧
    (∀ (lemmatize : PyStr → PyStr) (stop_words : List PyStr)
        (tokenize : PyStr → List PyStr),
      (∀ s t, t ∈ tokenize s → ∀ c ∈ t, c ∈ s) →
      ∀ (text : PyStr),
        clean_tokens lemmatize stop_words (tokenize (scrub (pyLower text))) =
          (tokenize (scrub (pyLower text))).filterMap (fun token =>
            if token ∉ stop_words ∧ 2 < token.length then
              some (if token.contains 45 then token else lemmatize token)
            else none)) ∧
    clean_text (fun s => [s]) (fun t => t) [] (pystr "AWS") = pystr "aws" ∧
    pystr "aws" ≠ pystr "AWS" := by
  have key : ∀ (tokenize : PyStr → List PyStr),
      (∀ s t, t ∈ tokenize s → ∀ c ∈ t, c ∈ s) →
      ∀ (text : PyStr) t, t ∈ tokenize (scrub (pyLower text)) →
        pyIsUpper t = false := by
    intro tokenize htok text t ht
    have hany : t.any (fun c => 65 ≤ c && c ≤ 90) = false := by
      rw [List.any_eq_false]
      intro c hc
      have hmem : c ∈ scrub (pyLower text) := htok _ t ht c hc
      have hno := mem_scrub_lower hmem
      simp only [Bool.and_eq_true, decide_eq_true_eq, not_and]
      intro h65 h90
      exact hno ⟨h65, h90⟩
    unfold pyIsUpper
    rw [hany, Bool.false_and]
  refine ⟨key, ?_, by decide, by decide⟩
  intro lemmatize stop_words tokenize htok text
  unfold clean_tokens
  apply List.filterMap_congr
  intro token htoken
  rw [key tokenize htok text token htoken, Bool.or_false]

/-- C9 witness: the dead-branch fact applied to the singleton tokenizer and
the lower-cased acronym token produced from "AWS". -/
theorem c9_acronym_witness : pyIsUpper (pystr "aws") = false :=
  c9_acronym_branch_unreachable.1 (fun s => [s])
    (by
      intro s t ht c hc
      rw [List.mem_singleton] at ht
      subst ht
      exact hc)
    (pystr "AWS") (pystr "aws") (by decide)
